import Mathlib

set_option maxRecDepth 2000

/-!
Shallow embedding of the Section Extraction and Validation Engine of the
`usb_pd_parser` repository.

Python strings are embedded as `List Char` (`PyStr`).  Python's whitespace
set is modelled by its ASCII fragment (all inputs analysed here are ASCII
or use the digit table below).  Python's `str.isdigit` is Unicode-aware;
it is modelled by `pyIsDigit`, a partial table of Unicode decimal-digit
ranges that is exact on every character appearing in this development.

Sources embedded (file, symbol):
- `src/utils/helpers.py`, `TextProcessor`
- `src/parsers/usb_pd_toc_parser.py`, `USBPDTOCParser`
- `src/parsers/usb_pd_spec_parser.py`, `USBPDSpecParser`
- `src/strategies/toc_validation_strategy.py`, `TOCValidationStrategy`
- `src/strategies/spec_validation_strategy.py`, `SpecValidationStrategy`
- `src/core/base_classes.py`, `BaseValidator`
-/

/-- A Python string, embedded as its list of characters. -/
abbrev PyStr := List Char

/-- ASCII fragment of Python's `str.isspace` / `str.strip` whitespace set. -/
def pyIsSpace (c : Char) : Bool :=
  c = ' ' || c = '\t' || c = '\n' || c = '\r' || c = '\x0b' || c = '\x0c'

/-- Whether `c` is an ASCII decimal digit, between '0' and '9'. -/
def isAsciiDigit (c : Char) : Bool :=
  '0' ≤ c && c ≤ '9'

/-- Python's `str.isdigit` on a single character: true on Unicode digit
characters, not only ASCII.  Modelled by a partial table (ASCII digits,
the superscripts U+00B2/U+00B3/U+00B9, Arabic-Indic U+0660..U+0669,
Extended Arabic-Indic U+06F0..U+06F9, Devanagari U+0966..U+096F and
fullwidth U+FF10..U+FF19), exact on all characters analysed here. -/
def pyIsDigit (c : Char) : Bool :=
  isAsciiDigit c
  || c.toNat = 0xB2 || c.toNat = 0xB3 || c.toNat = 0xB9
  || (0x660 ≤ c.toNat && c.toNat ≤ 0x669)
  || (0x6F0 ≤ c.toNat && c.toNat ≤ 0x6F9)
  || (0x966 ≤ c.toNat && c.toNat ≤ 0x96F)
  || (0xFF10 ≤ c.toNat && c.toNat ≤ 0xFF19)

/-- Python `str.lstrip()`. -/
def pyLStrip (s : PyStr) : PyStr :=
  s.dropWhile pyIsSpace

/-- Python `str.rstrip()`. -/
def pyRStrip (s : PyStr) : PyStr :=
  (s.reverse.dropWhile pyIsSpace).reverse

/-- Python `str.strip()`: drop whitespace from both ends. -/
def pyStrip (s : PyStr) : PyStr :=
  pyRStrip (pyLStrip s)

/-- Python `str.rstrip('.')`: drop trailing dots. -/
def pyRStripDot (s : PyStr) : PyStr :=
  (s.reverse.dropWhile (· = '.')).reverse

/-- Python `str.split(sep)` for a one-character separator: always returns a
non-empty list of (possibly empty) fields. -/
def pySplitOn (sep : Char) : PyStr → List PyStr
  | [] => [[]]
  | c :: rest =>
    let r := pySplitOn sep rest
    if c = sep then [] :: r
    else (c :: r.headI) :: r.tail

/-- Python splitting of a text block on the newline character. -/
def pySplitLines (s : PyStr) : List PyStr :=
  pySplitOn '\n' s

/-- Python `str.split(maxsplit=1)` (whitespace separator): at most two
parts; the empty list exactly when the string is empty or all whitespace. -/
def pySplitMax1 (s : PyStr) : List PyStr :=
  let s1 := s.dropWhile pyIsSpace
  if s1.isEmpty then []
  else
    let tok := s1.takeWhile (fun c => !pyIsSpace c)
    let rest := (s1.dropWhile (fun c => !pyIsSpace c)).dropWhile pyIsSpace
    if rest.isEmpty then [tok] else [tok, rest]

/-- Python truthiness of an optional string: None and the empty string are falsy. -/
def pyTruthyStr : Option PyStr → Bool
  | none => false
  | some s => !s.isEmpty

/-- Decimal rendering of a natural number, as Python renders it in an f-string. -/
def natToPyStr (n : Nat) : PyStr :=
  Nat.toDigits 10 n

/-- Model of `TextProcessor.is_section_header` (src/utils/helpers.py): strip the
line; a header iff non-empty and the first character passes `isdigit`.
`USBPDSpecParser.__is_section_header`, `USBPDTOCParser.__parse_toc_line`
and `ContentExtractor._is_section_header` apply the same test to the
already-stripped line. -/
def is_section_header (line : PyStr) : Bool :=
  let s := pyStrip line
  !s.isEmpty && pyIsDigit s.headI

/-! ## TOC builder (`src/parsers/usb_pd_toc_parser.py`, `USBPDTOCParser`) -/

/-- A TOC entry as built by `USBPDTOCParser.__parse_toc_line`. -/
structure TOCEntry where
  doc_title : PyStr
  section_id : PyStr
  title : PyStr
  page : Nat
  level : Nat
  parent_id : Option PyStr
  full_path : PyStr
deriving DecidableEq, Repr

/-- Model of `USBPDTOCParser.__calculate_parent_id`: `None` when the id has no dot,
otherwise all but the last dot-component rejoined with `'.'`. -/
def calculate_parent_id (section_id : PyStr) : Option PyStr :=
  if '.' ∈ section_id then
    some (List.intercalate ['.'] (pySplitOn '.' section_id).dropLast)
  else
    none

/-- Model of `USBPDTOCParser.__parse_toc_line`: strip, reject empty or
non-digit-initial lines, split into id and title, compute level and
parent. -/
def parse_toc_line (doc_title : PyStr) (line : PyStr) (page_num : Nat) :
    Option TOCEntry :=
  let ls := pyStrip line
  if ls.isEmpty then none
  else if !pyIsDigit ls.headI then none
  else
    let parts := pySplitMax1 ls
    let section_id := pyRStripDot parts.headI
    let title := parts.getD 1 []
    let level := section_id.count '.' + 1
    let parent_id := calculate_parent_id section_id
    some { doc_title := doc_title, section_id := section_id, title := title,
           page := page_num, level := level, parent_id := parent_id,
           full_path := section_id ++ ' ' :: title }

/-- Accumulator state of `USBPDTOCParser.parse`: the entry list plus the
hierarchy statistics the parser tracks.  `hierarchy_levels` models the
Python dict as an insertion-ordered association list. -/
structure TocParseState where
  entries : List TOCEntry
  hierarchy_levels : List (Nat × Nat)
  max_depth : Nat
  pattern_matched : Nat
deriving DecidableEq, Repr

/-- Model of the dict update of hierarchy levels in the TOC parser loop
on an insertion-ordered dict. -/
def bumpLevel : List (Nat × Nat) → Nat → List (Nat × Nat)
  | [], k => [(k, 1)]
  | (k', v) :: rest, k =>
    if k' = k then (k', v + 1) :: rest else (k', v) :: bumpLevel rest k

/-- Fresh state of `USBPDTOCParser.parse` (entries and counters empty). -/
def initTocParseState : TocParseState :=
  { entries := [], hierarchy_levels := [], max_depth := 0,
    pattern_matched := 0 }

/-- One line of the inner loop of `USBPDTOCParser.parse`. -/
def toc_process_line (doc_title : PyStr) (st : TocParseState) (page : Nat)
    (line : PyStr) : TocParseState :=
  match parse_toc_line doc_title line page with
  | none => st
  | some e =>
    { entries := st.entries ++ [e],
      hierarchy_levels := bumpLevel st.hierarchy_levels e.level,
      max_depth := max st.max_depth e.level,
      pattern_matched := st.pattern_matched + 1 }

/-- One page of `USBPDTOCParser.parse`: pages with empty text are skipped
(`if not content: continue`). -/
def toc_process_page (doc_title : PyStr) (st : TocParseState)
    (pg : Nat × PyStr) : TocParseState :=
  if pg.2.isEmpty then st
  else (pySplitLines pg.2).foldl (fun s l => toc_process_line doc_title s pg.1 l) st

/-- Model of `USBPDTOCParser.parse` over a page-ordered input mapping (modelled as
an insertion-ordered association list, as Python dicts iterate). -/
def toc_parse (doc_title : PyStr) (text_data : List (Nat × PyStr)) :
    TocParseState :=
  text_data.foldl (toc_process_page doc_title) initTocParseState

/-! ## Content section builder
(`src/parsers/usb_pd_spec_parser.py`, `USBPDSpecParser.parse`) -/

/-- A content record as built by `USBPDSpecParser.__create_section_entry`. -/
structure ContentSection where
  doc_title : PyStr
  section_id : PyStr
  content : PyStr
deriving DecidableEq, Repr

/-- Model of `USBPDSpecParser.__extract_section_id`: first whitespace token with
trailing dots removed. -/
def extract_section_id (line : PyStr) : PyStr :=
  pyRStripDot (pySplitMax1 line).headI

/-- Model of `USBPDSpecParser.__create_section_entry`: content is the
space-joined, stripped concatenation of the buffered lines. -/
def create_section_entry (doc_title section_id : PyStr)
    (buffer : List PyStr) : ContentSection :=
  { doc_title := doc_title, section_id := section_id,
    content := pyStrip (List.intercalate [' '] buffer) }

/-- Loop state of `USBPDSpecParser.parse`: emitted sections, the open
section id (`current_section`, `None` before the first header) and the
buffered lines. -/
structure SpecParseState where
  sections : List ContentSection
  current_section : Option PyStr
  buffer : List PyStr
deriving DecidableEq, Repr

/-- The flush step `if current_section and buffer: sections.append(...)`,
shared verbatim by the header branch and the final flush of
`USBPDSpecParser.parse`. -/
def flush_section (doc_title : PyStr) (st : SpecParseState) :
    List ContentSection :=
  if pyTruthyStr st.current_section && !st.buffer.isEmpty then
    st.sections ++
      [create_section_entry doc_title (st.current_section.getD []) st.buffer]
  else st.sections

/-- One line of the inner loop of `USBPDSpecParser.parse`. -/
def spec_process_line (doc_title : PyStr) (st : SpecParseState)
    (line : PyStr) : SpecParseState :=
  let ls := pyStrip line
  if !ls.isEmpty && pyIsDigit ls.headI then
    let sections := flush_section doc_title st
    let parts := pySplitMax1 ls
    { sections := sections,
      current_section := some (extract_section_id ls),
      buffer := if parts.length > 1 then [parts.getD 1 []] else [] }
  else if !ls.isEmpty then
    { st with buffer := st.buffer ++ [ls] }
  else st

/-- One page of `USBPDSpecParser.parse`: pages with empty text are skipped
(`if not content: continue`). -/
def spec_process_page (doc_title : PyStr) (st : SpecParseState)
    (pg : Nat × PyStr) : SpecParseState :=
  if pg.2.isEmpty then st
  else (pySplitLines pg.2).foldl (spec_process_line doc_title) st

/-- Fresh state of `USBPDSpecParser.parse`. -/
def initSpecParseState : SpecParseState :=
  { sections := [], current_section := none, buffer := [] }

/-- The page/line loop of `USBPDSpecParser.parse`, before the final
flush. -/
def spec_scan (doc_title : PyStr) (text_data : List (Nat × PyStr)) :
    SpecParseState :=
  text_data.foldl (spec_process_page doc_title) initSpecParseState

/-- Model of `USBPDSpecParser.parse`: run the loop, then perform the final flush
(`# Don't forget last section`). -/
def spec_parse (doc_title : PyStr) (text_data : List (Nat × PyStr)) :
    List ContentSection :=
  flush_section doc_title (spec_scan doc_title text_data)

/-! ## Validator base (`src/core/base_classes.py`, `BaseValidator`) -/

/-- The `BaseValidator` state: accumulated error messages, their count and
the tri-state verdict (`None` before any validation). -/
structure BaseValidatorState where
  validation_errors : List PyStr
  error_count : Nat
  is_valid : Option Bool
deriving DecidableEq, Repr

/-- Model of `BaseValidator._add_error`: append the message, bump the count, set
`is_valid` to `False`. -/
def add_error (b : BaseValidatorState) (msg : PyStr) : BaseValidatorState :=
  { validation_errors := b.validation_errors ++ [msg],
    error_count := b.error_count + 1,
    is_valid := some false }

/-- Model of `BaseValidator._reset`: clear errors, count and verdict.  Note it
touches only the base-class fields. -/
def reset_base (_b : BaseValidatorState) : BaseValidatorState :=
  { validation_errors := [], error_count := 0, is_valid := none }

/-- Model of `BaseValidator._mark_valid`. -/
def mark_valid (b : BaseValidatorState) : BaseValidatorState :=
  { b with is_valid := some true }

/-! ## Error message rendering (f-strings of the two strategies) -/

/-- Round-half-even of a rational, as Python's float/format rounding. -/
def roundHalfEven (q : ℚ) : ℤ :=
  let f := ⌊q⌋
  let r := q - f
  if r < 1/2 then f
  else if 1/2 < r then f + 1
  else if f % 2 = 0 then f else f + 1

/-- Decimal rendering of an integer. -/
def intToPyStr (n : ℤ) : PyStr :=
  if n < 0 then '-' :: natToPyStr (-n).toNat else natToPyStr n.toNat

/-- Python percent formatting with one decimal digit, the .1 percent
format spec; all values rendered in this code are nonnegative. -/
def pyFormatPct1 (q : ℚ) : PyStr :=
  let m := (roundHalfEven (q * 1000)).toNat
  natToPyStr (m / 10) ++ '.' :: natToPyStr (m % 10) ++ "%".data

/-- Python fixed-point formatting with zero decimals, the .0f format spec. -/
def pyFormatF0 (q : ℚ) : PyStr :=
  intToPyStr (roundHalfEven q)

/-- Message builder for the insufficient-sections error, stating the
count and the minimum. -/
def insufficient_sections_msg (count min_sections : Nat) : PyStr :=
  "Insufficient sections: ".data ++ natToPyStr count
    ++ " (minimum: ".data ++ natToPyStr min_sections ++ ")".data

/-- Message builder for the hierarchy-too-deep error. -/
def hierarchy_deep_msg (max_level max_depth : Nat) : PyStr :=
  "Hierarchy too deep: ".data ++ natToPyStr max_level
    ++ " levels (max: ".data ++ natToPyStr max_depth ++ ")".data

/-- Message builder for the too-many-hierarchy-issues error. -/
def hierarchy_issues_msg (n : Nat) : PyStr :=
  "Too many hierarchy issues: ".data ++ natToPyStr n

/-- Message builder for the duplicate-section-ids error. -/
def duplicate_ids_msg (n : Nat) : PyStr :=
  "Duplicate section IDs found: ".data ++ natToPyStr n

/-- Message builder for the missing-required-fields error. -/
def missing_fields_msg (n : Nat) : PyStr :=
  "Missing required fields in ".data ++ natToPyStr n ++ " entries".data

/-- Message builder for the content-quality-too-low error, both
percentages rendered as the source f-string does. -/
def content_quality_msg (quality threshold : ℚ) : PyStr :=
  "Content quality too low: ".data ++ pyFormatPct1 quality
    ++ " (threshold: ".data ++ pyFormatPct1 threshold ++ ")".data

/-- Message builder for the average-content-too-short error. -/
def avg_short_msg (avg : ℚ) : PyStr :=
  "Average content too short: ".data ++ pyFormatF0 avg ++ " chars".data

/-- Message builder for the too-many-empty-sections error. -/
def empty_pct_msg (pct : ℚ) : PyStr :=
  "Too many empty sections: ".data ++ pyFormatPct1 pct

/-! ## TOC validation strategy
(`src/strategies/toc_validation_strategy.py`, `TOCValidationStrategy`) -/

/-- A TOC entry as a dict consumed by the validator: every schema key may
be absent (`Option`), matching the `.get` / `in` accesses of the code. -/
structure TocDict where
  doc_title : Option PyStr
  section_id : Option PyStr
  title : Option PyStr
  page : Option Nat
  level : Option Nat
  parent_id : Option PyStr
  full_path : Option PyStr
deriving DecidableEq, Repr

/-- View a builder-produced `TOCEntry` as the dict the validator receives
(all keys present; `parent_id` possibly `None`). -/
def TOCEntry.toDict (e : TOCEntry) : TocDict :=
  { doc_title := some e.doc_title, section_id := some e.section_id,
    title := some e.title, page := some e.page, level := some e.level,
    parent_id := e.parent_id, full_path := some e.full_path }

/-- Instance state of `TOCValidationStrategy`: the `BaseValidator` fields
plus the strategy's private attributes. -/
structure TocValidatorState where
  base : BaseValidatorState
  min_sections : Nat
  max_hierarchy_depth : Nat
  validated_sections : List PyStr
  hierarchy_issues : List PyStr
deriving DecidableEq, Repr

/-- Model of `TOCValidationStrategy.__init__`: thresholds 1000 and 10, empty lists. -/
def initTocValidator : TocValidatorState :=
  { base := { validation_errors := [], error_count := 0, is_valid := none },
    min_sections := 1000, max_hierarchy_depth := 10,
    validated_sections := [], hierarchy_issues := [] }

/-- Model of `TOCValidationStrategy.__validate_section_count`. -/
def toc_validate_section_count (st : TocValidatorState)
    (data : List TocDict) : Bool × TocValidatorState :=
  let count := data.length
  if count < st.min_sections then
    (false, { st with
      base := add_error st.base (insufficient_sections_msg count st.min_sections) })
  else (true, st)

/-- Loop body of `TOCValidationStrategy.__validate_hierarchy`: track the
running `max_level` and append to `__hierarchy_issues` the id of any entry
with `level > 1` and a falsy `parent_id`. -/
def toc_hierarchy_step (acc : Nat × List PyStr) (e : TocDict) :
    Nat × List PyStr :=
  let level := e.level.getD 0
  let max_level := max acc.1 level
  if level > 1 && !pyTruthyStr e.parent_id then
    (max_level, acc.2 ++ [e.section_id.getD "unknown".data])
  else (max_level, acc.2)

/-- Model of `TOCValidationStrategy.__validate_hierarchy`.  The ratio test
`len(issues) > len(data) * 0.1` is modelled in exact rationals. -/
def toc_validate_hierarchy (st : TocValidatorState) (data : List TocDict) :
    Bool × TocValidatorState :=
  let r := data.foldl toc_hierarchy_step (0, st.hierarchy_issues)
  let max_level := r.1
  let st := { st with hierarchy_issues := r.2 }
  if max_level > st.max_hierarchy_depth then
    (false, { st with
      base := add_error st.base (hierarchy_deep_msg max_level st.max_hierarchy_depth) })
  else if (st.hierarchy_issues.length : ℚ) > (data.length : ℚ) * (1 / 10) then
    (false, { st with
      base := add_error st.base (hierarchy_issues_msg st.hierarchy_issues.length) })
  else (true, st)

/-- Loop body of `TOCValidationStrategy.__validate_section_ids`:
accumulator is (`seen_ids` as a membership list, `duplicates`,
`__validated_sections`). -/
def toc_ids_step (acc : List PyStr × List PyStr × List PyStr) (e : TocDict) :
    List PyStr × List PyStr × List PyStr :=
  let sid := e.section_id.getD []
  if sid ∈ acc.1 then (acc.1, acc.2.1 ++ [sid], acc.2.2)
  else (acc.1 ++ [sid], acc.2.1, acc.2.2 ++ [sid])

/-- Model of `TOCValidationStrategy.__validate_section_ids`. -/
def toc_validate_section_ids (st : TocValidatorState) (data : List TocDict) :
    Bool × TocValidatorState :=
  let r := data.foldl toc_ids_step ([], [], st.validated_sections)
  let st := { st with validated_sections := r.2.2 }
  if !r.2.1.isEmpty then
    (false, { st with
      base := add_error st.base (duplicate_ids_msg r.2.1.length) })
  else (true, st)

/-- Missing-required-field count of one entry
(`section_id, title, page, level, full_path`). -/
def toc_missing_count (e : TocDict) : Nat :=
  (if e.section_id.isSome then 0 else 1) + (if e.title.isSome then 0 else 1)
    + (if e.page.isSome then 0 else 1) + (if e.level.isSome then 0 else 1)
    + (if e.full_path.isSome then 0 else 1)

/-- Model of `TOCValidationStrategy.__validate_required_fields`. -/
def toc_validate_required_fields (st : TocValidatorState)
    (data : List TocDict) : Bool × TocValidatorState :=
  let n := (data.map toc_missing_count).sum
  if n > 0 then
    (false, { st with base := add_error st.base (missing_fields_msg n) })
  else (true, st)

/-- Model of `TOCValidationStrategy.validate`: reset the base state, run the four
rules with short-circuiting, mark valid when no error was recorded. -/
def toc_validate (st : TocValidatorState) (data : List TocDict) :
    Bool × TocValidatorState :=
  let st := { st with base := reset_base st.base }
  let r1 := toc_validate_section_count st data
  if !r1.1 then (false, r1.2) else
  let r2 := toc_validate_hierarchy r1.2 data
  if !r2.1 then (false, r2.2) else
  let r3 := toc_validate_section_ids r2.2 data
  if !r3.1 then (false, r3.2) else
  let r4 := toc_validate_required_fields r3.2 data
  if !r4.1 then (false, r4.2) else
  if r4.2.base.error_count = 0 then
    (true, { r4.2 with base := mark_valid r4.2.base })
  else (false, r4.2)

/-! ## Content validation strategy
(`src/strategies/spec_validation_strategy.py`, `SpecValidationStrategy`).
The two unguarded float divisions of the Python code are modelled in exact
rationals behind `Option`: a `none` result marks the `ZeroDivisionError`
the code would raise. -/

/-- A content record as a dict consumed by the validator (keys optional). -/
structure ContentDict where
  doc_title : Option PyStr
  section_id : Option PyStr
  content : Option PyStr
deriving DecidableEq, Repr

/-- View a builder-produced `ContentSection` as the dict the validator
receives. -/
def ContentSection.toDict (e : ContentSection) : ContentDict :=
  { doc_title := some e.doc_title, section_id := some e.section_id,
    content := some e.content }

/-- Instance state of `SpecValidationStrategy`: the `BaseValidator` fields
plus the strategy's private attributes. -/
structure SpecValidatorState where
  base : BaseValidatorState
  min_sections : Nat
  min_content_quality : ℚ
  empty_sections : List PyStr
  short_sections : List PyStr
  total_content_length : Nat
  min_content_length : Nat
deriving DecidableEq, Repr

/-- Model of `SpecValidationStrategy.__init__`: thresholds 1000, 0.75 and 50. -/
def initSpecValidator : SpecValidatorState :=
  { base := { validation_errors := [], error_count := 0, is_valid := none },
    min_sections := 1000, min_content_quality := 3 / 4,
    empty_sections := [], short_sections := [],
    total_content_length := 0, min_content_length := 50 }

/-- Model of `SpecValidationStrategy.__validate_section_count`. -/
def spec_validate_section_count (st : SpecValidatorState)
    (data : List ContentDict) : Bool × SpecValidatorState :=
  let count := data.length
  if count < st.min_sections then
    (false, { st with
      base := add_error st.base (insufficient_sections_msg count st.min_sections) })
  else (true, st)

/-- Loop body of `SpecValidationStrategy.__validate_content_quality`:
accumulate trimmed length into `__total_content_length`, classify the
entry as empty / short / long, count `sections_with_content` (the second
component). -/
def spec_quality_step (acc : SpecValidatorState × Nat) (e : ContentDict) :
    SpecValidatorState × Nat :=
  let st := acc.1
  let clen := (pyStrip (e.content.getD [])).length
  let st := { st with total_content_length := st.total_content_length + clen }
  if clen = 0 then
    ({ st with empty_sections :=
        st.empty_sections ++ [e.section_id.getD "unknown".data] }, acc.2)
  else if clen < st.min_content_length then
    ({ st with short_sections :=
        st.short_sections ++ [e.section_id.getD "unknown".data] }, acc.2 + 1)
  else (st, acc.2 + 1)

/-- Model of `SpecValidationStrategy.__validate_content_quality`; the division
`sections_with_content / total_sections` raises on empty input (`none`). -/
def spec_validate_content_quality (st : SpecValidatorState)
    (data : List ContentDict) : Option (Bool × SpecValidatorState) :=
  let r := data.foldl spec_quality_step (st, 0)
  let st := r.1
  if data.length = 0 then none
  else
    let quality : ℚ := (r.2 : ℚ) / (data.length : ℚ)
    if quality < st.min_content_quality then
      some (false, { st with
        base := add_error st.base (content_quality_msg quality st.min_content_quality) })
    else some (true, st)

/-- Missing-required-field count of one entry
(`section_id, content, doc_title`). -/
def content_missing_count (e : ContentDict) : Nat :=
  (if e.section_id.isSome then 0 else 1) + (if e.content.isSome then 0 else 1)
    + (if e.doc_title.isSome then 0 else 1)

/-- Model of `SpecValidationStrategy.__validate_required_fields`. -/
def spec_validate_required_fields (st : SpecValidatorState)
    (data : List ContentDict) : Bool × SpecValidatorState :=
  let n := (data.map content_missing_count).sum
  if n > 0 then
    (false, { st with base := add_error st.base (missing_fields_msg n) })
  else (true, st)

/-- Model of `SpecValidationStrategy.__validate_content_coverage`: the average
length is guarded (`if len(data) > 0`), the `empty_pct` division is not,
hence the `none` branch (unreachable in fact, as proved below). -/
def spec_validate_content_coverage (st : SpecValidatorState)
    (data : List ContentDict) : Option (Bool × SpecValidatorState) :=
  let avg : ℚ :=
    if data.length > 0 then (st.total_content_length : ℚ) / (data.length : ℚ)
    else 0
  if avg < 100 then
    some (false, { st with base := add_error st.base (avg_short_msg avg) })
  else if data.length = 0 then none
  else
    let empty_pct : ℚ := (st.empty_sections.length : ℚ) / (data.length : ℚ)
    if empty_pct > 1 / 20 then
      some (false, { st with base := add_error st.base (empty_pct_msg empty_pct) })
    else some (true, st)

/-- Model of `SpecValidationStrategy.validate`: reset the base state, run the four
rules with short-circuiting, mark valid when no error was recorded.
`none` models an uncaught `ZeroDivisionError`. -/
def spec_validate (st : SpecValidatorState) (data : List ContentDict) :
    Option (Bool × SpecValidatorState) :=
  let st := { st with base := reset_base st.base }
  let r1 := spec_validate_section_count st data
  if !r1.1 then some (false, r1.2) else
  match spec_validate_content_quality r1.2 data with
  | none => none
  | some r2 =>
    if !r2.1 then some (false, r2.2) else
    let r3 := spec_validate_required_fields r2.2 data
    if !r3.1 then some (false, r3.2) else
    match spec_validate_content_coverage r3.2 data with
    | none => none
    | some r4 =>
      if !r4.1 then some (false, r4.2) else
      if r4.2.base.error_count = 0 then
        (some (true, { r4.2 with base := mark_valid r4.2.base }))
      else some (false, r4.2)

/-! ## Concrete inputs used by witnesses and counterexamples -/

/-- The worked example of the spec: one page, two sections. -/
def samplePage : List (Nat × PyStr) :=
  [(1, "1 Intro\nSome text\n1.1 Background\nMore text".data)]

/-- A one-page input whose last line is non-header content. -/
def trailingPage : List (Nat × PyStr) :=
  [(1, "1 Intro\nSome text".data)]

/-- A well-formed level-1 TOC dict. -/
def wellFormedTocDict : TocDict :=
  { doc_title := some "Spec".data, section_id := some "1".data,
    title := some "t".data, page := some 1, level := some 1,
    parent_id := none, full_path := some "1 t".data }

/-- A level-2 TOC dict whose `parent_id` is `None`: each occurrence makes
`__validate_hierarchy` append one hierarchy issue. -/
def orphanTocDict : TocDict :=
  { doc_title := some "Spec".data, section_id := some "1.1".data,
    title := some "t".data, page := some 1, level := some 2,
    parent_id := none, full_path := some "1.1 t".data }

/-- A thousand copies of the orphan entry: passes the count rule, fails the
hierarchy-issues ratio. -/
def orphanTocData : List TocDict :=
  List.replicate 1000 orphanTocDict

/-- A content dict with empty content. -/
def emptyContentDict : ContentDict :=
  { doc_title := some "Spec".data, section_id := some "9".data,
    content := some [] }

/-- A content dict with one character of content. -/
def shortContentDict : ContentDict :=
  { doc_title := some "Spec".data, section_id := some "8".data,
    content := some "x".data }

/-- A thousand content dicts of which 40 percent (400) have empty content. -/
def fortyPctEmptyData : List ContentDict :=
  List.replicate 400 emptyContentDict ++ List.replicate 600 shortContentDict

/-- The content validator with its quality threshold set to 0.5, the value
stipulated by the claim (the code itself fixes 0.75 in `__init__`). -/
def halfQualityValidator : SpecValidatorState :=
  { initSpecValidator with min_content_quality := 1 / 2 }

/-! ## Lemmas about the string primitives -/

theorem pyRStrip_eq_rdropWhile (s : PyStr) :
    pyRStrip s = s.rdropWhile pyIsSpace := rfl

theorem pyRStripDot_eq_rdropWhile (s : PyStr) :
    pyRStripDot s = s.rdropWhile (· = '.') := rfl

/-- A whitespace character is not a digit (over the modelled tables). -/
theorem space_not_digit {c : Char} (h : pyIsSpace c = true) :
    pyIsDigit c = false := by
  simp only [pyIsSpace, Bool.or_eq_true, decide_eq_true_eq] at h
  rcases h with ((((rfl | rfl) | rfl) | rfl) | rfl) | rfl <;> decide

/-- A digit character is not whitespace. -/
theorem digit_not_space {c : Char} (h : pyIsDigit c = true) :
    pyIsSpace c = false := by
  cases hs : pyIsSpace c with
  | false => rfl
  | true => rw [space_not_digit hs] at h; cases h

/-- A digit character is not a dot. -/
theorem digit_ne_dot {c : Char} (h : pyIsDigit c = true) : c ≠ '.' := by
  intro heq
  subst heq
  exact absurd h (by decide)

/-- A member of a list that fails `p` survives `dropWhile p`. -/
theorem mem_dropWhile_of_mem {α : Type} {p : α → Bool} {c : α} {l : List α}
    (h : c ∈ l) (hpc : p c = false) : c ∈ l.dropWhile p := by
  induction l with
  | nil => simp at h
  | cons a t ih =>
    rw [List.dropWhile_cons]
    by_cases hpa : p a
    · simp only [hpa, if_true]
      rcases List.mem_cons.mp h with rfl | hm
      · rw [hpc] at hpa; cases hpa
      · exact ih hm
    · simp only [hpa, if_false]
      exact h

/-- A non-whitespace member of a string survives `pyStrip`. -/
theorem mem_pyStrip {c : Char} {s : PyStr} (hc : c ∈ s)
    (hns : pyIsSpace c = false) : c ∈ pyStrip s := by
  unfold pyStrip pyRStrip pyLStrip
  have h1 : c ∈ s.dropWhile pyIsSpace := mem_dropWhile_of_mem hc hns
  have h2 : c ∈ (s.dropWhile pyIsSpace).reverse := List.mem_reverse.mpr h1
  exact List.mem_reverse.mpr (mem_dropWhile_of_mem h2 hns)

/-- A string containing a non-whitespace character strips to non-empty. -/
theorem pyStrip_ne_nil_of_mem {c : Char} {s : PyStr} (hc : c ∈ s)
    (hns : pyIsSpace c = false) : pyStrip s ≠ [] :=
  List.ne_nil_of_mem (mem_pyStrip hc hns)

/-- A non-empty `rdropWhile` keeps the head of the list. -/
theorem headI_rdropWhile {p : Char → Bool} {l : PyStr}
    (h : l.rdropWhile p ≠ []) : (l.rdropWhile p).headI = l.headI := by
  obtain ⟨r, hr⟩ := List.rdropWhile_prefix p (l := l)
  cases hpre : l.rdropWhile p with
  | nil => exact absurd hpre h
  | cons c t =>
    rw [hpre] at hr
    rw [← hr]
    simp

/-- The head of a non-empty `dropWhile p` fails `p`. -/
theorem headI_dropWhile_not {α : Type} [Inhabited α] {p : α → Bool}
    {l : List α} (h : l.dropWhile p ≠ []) : p (l.dropWhile p).headI = false := by
  induction l with
  | nil => simp at h
  | cons a t ih =>
    rw [List.dropWhile_cons] at h ⊢
    by_cases hpa : p a
    · simp only [hpa, if_true] at h ⊢
      exact ih h
    · simp only [hpa, if_false]
      simpa using hpa

/-- The head of a non-empty stripped string is not whitespace. -/
theorem pyStrip_headI_not_space {s : PyStr} (h : pyStrip s ≠ []) :
    pyIsSpace (pyStrip s).headI = false := by
  have hrw : pyStrip s = (s.dropWhile pyIsSpace).rdropWhile pyIsSpace := rfl
  rw [hrw] at h ⊢
  rw [headI_rdropWhile h]
  have hd : s.dropWhile pyIsSpace ≠ [] := by
    intro hnil
    rw [hnil] at h
    simp at h
  exact headI_dropWhile_not hd

/-- The function `dropWhile` is the identity when the head already fails `p`. -/
theorem dropWhile_eq_self_of_headI {α : Type} [Inhabited α] {p : α → Bool}
    {l : List α} (hne : l ≠ []) (h : p l.headI = false) :
    l.dropWhile p = l := by
  cases l with
  | nil => exact absurd rfl hne
  | cons a t =>
    rw [List.dropWhile_cons]
    simp only [List.headI] at h
    simp [h]

/-- The function `takeWhile` keeps the head when it satisfies `p`. -/
theorem takeWhile_cons_of_headI {α : Type} [Inhabited α] {p : α → Bool}
    {l : List α} (hne : l ≠ []) (h : p l.headI = true) :
    ∃ t, l.takeWhile p = l.headI :: t := by
  cases l with
  | nil => exact absurd rfl hne
  | cons a t =>
    rw [List.takeWhile_cons]
    simp only [List.headI] at h ⊢
    simp [h]

/-- On a non-empty string whose head is not whitespace, the first part of
`split(maxsplit=1)` is the leading non-whitespace token. -/
theorem pySplitMax1_parts {s : PyStr} (hne : s ≠ [])
    (hns : pyIsSpace s.headI = false) :
    (pySplitMax1 s).headI = s.takeWhile (fun c => !pyIsSpace c) ∧
      pySplitMax1 s ≠ [] := by
  have hie : s.isEmpty = false := by
    cases s with
    | nil => exact absurd rfl hne
    | cons a t => rfl
  simp only [pySplitMax1, dropWhile_eq_self_of_headI hne hns, hie,
    Bool.false_eq_true, if_false]
  split <;> simp

/-- The shapes `pySplitMax1` can take: empty, one token, or a token and
a non-empty remainder whose head is not whitespace. -/
theorem pySplitMax1_cases (s : PyStr) :
    pySplitMax1 s = [] ∨ (∃ tok, pySplitMax1 s = [tok]) ∨
      ∃ tok c t, pySplitMax1 s = [tok, c :: t] ∧ pyIsSpace c = false := by
  simp only [pySplitMax1]
  split
  · exact Or.inl rfl
  · split
    · exact Or.inr (Or.inl ⟨_, rfl⟩)
    · next hre =>
      have hrne : ((s.dropWhile pyIsSpace).dropWhile
          (fun c => !pyIsSpace c)).dropWhile pyIsSpace ≠ [] := by
        simpa [List.isEmpty_iff] using hre
      cases hrest : ((s.dropWhile pyIsSpace).dropWhile
          (fun c => !pyIsSpace c)).dropWhile pyIsSpace with
      | nil => exact absurd hrest hrne
      | cons c t =>
        refine Or.inr (Or.inr ⟨_, c, t, rfl, ?_⟩)
        have := headI_dropWhile_not hrne
        rwa [hrest] at this

/-- When `split(maxsplit=1)` returns two parts, the second part is
non-empty with a non-whitespace head. -/
theorem pySplitMax1_getD1 {s : PyStr} (h : 1 < (pySplitMax1 s).length) :
    ∃ c t, (pySplitMax1 s).getD 1 [] = c :: t ∧ pyIsSpace c = false := by
  rcases pySplitMax1_cases s with h0 | ⟨tok, h1⟩ | ⟨tok, c, t, h2, hc⟩
  · rw [h0] at h
    simp at h
  · rw [h1] at h
    simp at h
  · rw [h2]
    exact ⟨c, t, rfl, hc⟩

/-- Applying `extract_section_id` to a stripped header line is non-empty and keeps
the leading (digit) character of the line. -/
theorem extract_section_id_spec {s : PyStr} (hne : s ≠ [])
    (hd : pyIsDigit s.headI = true) :
    extract_section_id s ≠ [] ∧ (extract_section_id s).headI = s.headI := by
  have hns := digit_not_space hd
  obtain ⟨hheadI, hpne⟩ := pySplitMax1_parts hne hns
  obtain ⟨t', ht'⟩ :=
    takeWhile_cons_of_headI (p := fun c => !pyIsSpace c) hne (by simp [hns])
  have htokne : (pySplitMax1 s).headI.rdropWhile (· = '.') ≠ [] := by
    rw [Ne, List.rdropWhile_eq_nil_iff]
    intro hall
    have hmem : s.headI ∈ (pySplitMax1 s).headI := by
      rw [hheadI, ht']
      exact List.mem_cons_self _ _
    have h3 := hall _ hmem
    exact digit_ne_dot hd (of_decide_eq_true h3)
  constructor
  · rw [extract_section_id, pyRStripDot_eq_rdropWhile]
    exact htokne
  · rw [extract_section_id, pyRStripDot_eq_rdropWhile,
      headI_rdropWhile htokne, hheadI, ht']
    rfl

/-- Membership in an `intercalate` from membership in a component. -/
theorem mem_intercalate {c : Char} {b : PyStr} {bs : List PyStr}
    (hb : b ∈ bs) (hc : c ∈ b) : c ∈ List.intercalate [' '] bs := by
  rw [List.intercalate, List.mem_flatten]
  refine ⟨b, ?_, hc⟩
  induction bs with
  | nil => simp at hb
  | cons x xs ih =>
    rcases List.mem_cons.mp hb with rfl | hm
    · cases xs <;> simp [List.intersperse]
    · cases xs with
      | nil => simp at hm
      | cons y ys =>
        simp only [List.intersperse]
        exact List.mem_cons_of_mem _ (List.mem_cons_of_mem _ (ih hm))

/-- Every section emitted by a flush has content that strips to
non-empty, provided the buffered lines all contain non-whitespace. -/
theorem flush_section_inv {dt : PyStr} {st : SpecParseState}
    (h2 : ∀ b ∈ st.buffer, ∃ c ∈ b, pyIsSpace c = false)
    (h3 : ∀ e ∈ st.sections, pyStrip e.content ≠ []) :
    ∀ e ∈ flush_section dt st, pyStrip e.content ≠ [] := by
  unfold flush_section
  split
  · next hguard =>
    intro e he
    rcases List.mem_append.mp he with hin | hnew
    · exact h3 e hin
    · have he' := List.mem_singleton.mp hnew
      subst he'
      have hbne : st.buffer ≠ [] := by
        have hb2 := (Bool.and_eq_true _ _).mp hguard |>.2
        simpa [List.isEmpty_iff] using hb2
      obtain ⟨b, bs, hb⟩ := List.exists_cons_of_ne_nil hbne
      obtain ⟨c, hcb, hcs⟩ := h2 b (by rw [hb]; exact List.mem_cons_self _ _)
      have hcj : c ∈ List.intercalate [' '] st.buffer :=
        mem_intercalate (by rw [hb]; exact List.mem_cons_self _ _) hcb
      show pyStrip (pyStrip (List.intercalate [' '] st.buffer)) ≠ []
      exact pyStrip_ne_nil_of_mem (mem_pyStrip hcj hcs) hcs
  · exact fun e he => h3 e he

/-- The three-part loop invariant of `USBPDSpecParser.parse` is preserved
by one line: the open section id is non-empty, every buffered line has a
non-whitespace character, and every emitted section strips to non-empty
content. -/
theorem spec_process_line_inv {dt : PyStr} {st : SpecParseState}
    (line : PyStr)
    (h1 : ∀ sid, st.current_section = some sid → sid ≠ [])
    (h2 : ∀ b ∈ st.buffer, ∃ c ∈ b, pyIsSpace c = false)
    (h3 : ∀ e ∈ st.sections, pyStrip e.content ≠ []) :
    (∀ sid, (spec_process_line dt st line).current_section = some sid → sid ≠ []) ∧
      (∀ b ∈ (spec_process_line dt st line).buffer, ∃ c ∈ b, pyIsSpace c = false) ∧
      (∀ e ∈ (spec_process_line dt st line).sections, pyStrip e.content ≠ []) := by
  simp only [spec_process_line]
  split
  · next hg =>
    obtain ⟨hne', hdig⟩ := (Bool.and_eq_true _ _).mp hg
    have hlsne : pyStrip line ≠ [] := by simpa [List.isEmpty_iff] using hne'
    have hdig' : pyIsDigit (pyStrip line).headI = true := hdig
    refine ⟨?_, ?_, ?_⟩
    · intro sid hsid
      have := (extract_section_id_spec hlsne hdig').1
      simp only [Option.some.injEq] at hsid
      rw [← hsid]
      exact this
    · simp only []
      split
      · next hlen =>
        intro b hbmem
        have hb := List.mem_singleton.mp hbmem
        subst hb
        obtain ⟨c, t, hct, hcs⟩ := pySplitMax1_getD1 hlen
        exact ⟨c, by rw [hct]; exact List.mem_cons_self _ _, hcs⟩
      · intro b hbmem
        simp at hbmem
    · exact flush_section_inv h2 h3
  · split
    · next hlsne' =>
      refine ⟨h1, ?_, h3⟩
      intro b hbmem
      rcases List.mem_append.mp hbmem with hin | hnew
      · exact h2 b hin
      · have hb := List.mem_singleton.mp hnew
        subst hb
        have hlsne : pyStrip line ≠ [] := by
          simpa [List.isEmpty_iff] using hlsne'
        have hhead := pyStrip_headI_not_space hlsne
        cases hls : pyStrip line with
        | nil => exact absurd hls hlsne
        | cons c t =>
          rw [hls] at hhead
          exact ⟨c, List.mem_cons_self _ _, hhead⟩
    · exact ⟨h1, h2, h3⟩

/-- The loop invariant holds after folding any list of lines. -/
theorem spec_lines_inv {dt : PyStr} (lines : List PyStr) :
    ∀ st : SpecParseState,
      ((∀ sid, st.current_section = some sid → sid ≠ []) ∧
        (∀ b ∈ st.buffer, ∃ c ∈ b, pyIsSpace c = false) ∧
        (∀ e ∈ st.sections, pyStrip e.content ≠ [])) →
      ((∀ sid, (lines.foldl (spec_process_line dt) st).current_section = some sid → sid ≠ []) ∧
        (∀ b ∈ (lines.foldl (spec_process_line dt) st).buffer, ∃ c ∈ b, pyIsSpace c = false) ∧
        (∀ e ∈ (lines.foldl (spec_process_line dt) st).sections, pyStrip e.content ≠ [])) := by
  induction lines with
  | nil => exact fun st h => h
  | cons l ls ih =>
    intro st h
    obtain ⟨h1, h2, h3⟩ := h
    rw [List.foldl_cons]
    exact ih _ (spec_process_line_inv l h1 h2 h3)

/-- The loop invariant holds after processing any single page. -/
theorem spec_page_inv {dt : PyStr} (pg : Nat × PyStr) {st : SpecParseState}
    (h : (∀ sid, st.current_section = some sid → sid ≠ []) ∧
      (∀ b ∈ st.buffer, ∃ c ∈ b, pyIsSpace c = false) ∧
      (∀ e ∈ st.sections, pyStrip e.content ≠ [])) :
    (∀ sid, (spec_process_page dt st pg).current_section = some sid → sid ≠ []) ∧
      (∀ b ∈ (spec_process_page dt st pg).buffer, ∃ c ∈ b, pyIsSpace c = false) ∧
      (∀ e ∈ (spec_process_page dt st pg).sections, pyStrip e.content ≠ []) := by
  unfold spec_process_page
  split
  · exact h
  · exact spec_lines_inv _ st h

/-- The loop invariant of `USBPDSpecParser.parse` holds at the end of the
page/line scan for every input. -/
theorem spec_scan_inv (dt : PyStr) (td : List (Nat × PyStr)) :
    (∀ sid, (spec_scan dt td).current_section = some sid → sid ≠ []) ∧
      (∀ b ∈ (spec_scan dt td).buffer, ∃ c ∈ b, pyIsSpace c = false) ∧
      (∀ e ∈ (spec_scan dt td).sections, pyStrip e.content ≠ []) := by
  have hgen : ∀ (l : List (Nat × PyStr)) (st : SpecParseState),
      ((∀ sid, st.current_section = some sid → sid ≠ []) ∧
        (∀ b ∈ st.buffer, ∃ c ∈ b, pyIsSpace c = false) ∧
        (∀ e ∈ st.sections, pyStrip e.content ≠ [])) →
      ((∀ sid, (l.foldl (spec_process_page dt) st).current_section = some sid → sid ≠ []) ∧
        (∀ b ∈ (l.foldl (spec_process_page dt) st).buffer, ∃ c ∈ b, pyIsSpace c = false) ∧
        (∀ e ∈ (l.foldl (spec_process_page dt) st).sections, pyStrip e.content ≠ [])) := by
    intro l
    induction l with
    | nil => exact fun st h => h
    | cons pg pgs ih =>
      intro st h
      rw [List.foldl_cons]
      exact ih _ (spec_page_inv pg h)
  refine hgen td initSpecParseState ⟨?_, ?_, ?_⟩ <;>
    simp [initSpecParseState]

/-- The split `pySplitOn` never returns the empty list. -/
theorem pySplitOn_ne_nil (sep : Char) (s : PyStr) : pySplitOn sep s ≠ [] := by
  cases s with
  | nil => simp [pySplitOn]
  | cons c rest =>
    simp only [pySplitOn]
    split <;> simp

/-- The number of fields of `pySplitOn` is the separator count plus one. -/
theorem length_pySplitOn (sep : Char) (s : PyStr) :
    (pySplitOn sep s).length = s.count sep + 1 := by
  induction s with
  | nil => simp [pySplitOn]
  | cons c rest ih =>
    obtain ⟨a, t, ha⟩ := List.exists_cons_of_ne_nil (pySplitOn_ne_nil sep rest)
    rw [ha] at ih
    simp only [List.length_cons] at ih
    simp only [pySplitOn]
    by_cases hc : c = sep
    · subst hc
      simp [ha, List.count_cons]
      omega
    · simp [hc, ha, List.count_cons]
      omega

/-- An `intercalate` whose first component is non-empty is non-empty. -/
theorem intercalate_cons_ne_nil {x : PyStr} {xs : List PyStr}
    (hx : x ≠ []) : List.intercalate ['.'] (x :: xs) ≠ [] := by
  obtain ⟨c, t, rfl⟩ := List.exists_cons_of_ne_nil hx
  cases xs <;> simp [List.intercalate, List.intersperse]

/-- The result of `calculate_parent_id` is `None` exactly on dot-free ids. -/
theorem calculate_parent_id_eq_none {sid : PyStr} :
    calculate_parent_id sid = none ↔ '.' ∉ sid := by
  unfold calculate_parent_id
  split <;> simp_all

/-- On an id that starts with a digit, a non-`None` parent id is a
non-empty string. -/
theorem calculate_parent_id_ne_nil {sid : PyStr} (hne : sid ≠ [])
    (hd : pyIsDigit sid.headI = true) {p : PyStr}
    (hp : calculate_parent_id sid = some p) : p ≠ [] := by
  unfold calculate_parent_id at hp
  split at hp
  · next hdot =>
    simp only [Option.some.injEq] at hp
    obtain ⟨c0, t0, rfl⟩ := List.exists_cons_of_ne_nil hne
    have hc0 : c0 ≠ '.' := digit_ne_dot hd
    have hsplit : pySplitOn '.' (c0 :: t0) =
        (c0 :: (pySplitOn '.' t0).headI) :: (pySplitOn '.' t0).tail := by
      simp [pySplitOn, hc0]
    have hcount : 0 < (c0 :: t0).count '.' := List.count_pos_iff.mpr hdot
    have hlen : 2 ≤ (pySplitOn '.' (c0 :: t0)).length := by
      rw [length_pySplitOn]
      omega
    rw [hsplit] at hlen hp
    have htail : (pySplitOn '.' t0).tail ≠ [] := by
      intro hnil
      rw [hnil] at hlen
      simp at hlen
    obtain ⟨y, ys, hy⟩ := List.exists_cons_of_ne_nil htail
    rw [hy, List.dropLast_cons₂] at hp
    rw [← hp]
    exact intercalate_cons_ne_nil (by simp)
  · cases hp

/-- Inversion for `parse_toc_line`: a produced entry has `parent_id` null
exactly at level 1, and any non-null parent id is non-empty. -/
theorem parse_toc_line_parent_level {dt line : PyStr} {pg : Nat}
    {e : TOCEntry} (h : parse_toc_line dt line pg = some e) :
    (e.parent_id = none ↔ e.level = 1) ∧
      (∀ p, e.parent_id = some p → p ≠ []) := by
  simp only [parse_toc_line] at h
  split at h
  · cases h
  · split at h
    · cases h
    · next hie hdg =>
      have hlsne : pyStrip line ≠ [] := by
        simpa [List.isEmpty_iff] using hie
      have hdig : pyIsDigit (pyStrip line).headI = true := by
        simpa using hdg
      obtain ⟨hsne, hshead⟩ := extract_section_id_spec hlsne hdig
      simp only [Option.some.injEq] at h
      subst h
      constructor
      · simp only
        rw [calculate_parent_id_eq_none, ← List.count_eq_zero]
        omega
      · intro p hp
        exact calculate_parent_id_ne_nil hsne (by rw [hshead]; exact hdig) hp

/-- The parse of `parse_toc_line` produces an entry exactly on header lines. -/
theorem parse_toc_line_isSome (dt line : PyStr) (pg : Nat) :
    (parse_toc_line dt line pg).isSome = is_section_header line := by
  simp only [parse_toc_line, is_section_header]
  split
  · next hie => simp [hie]
  · next hie =>
    split
    · next hdg =>
      simp only [Option.isSome_none]
      simp only [Bool.not_eq_true'] at hdg
      simp [hie, hdg]
    · next hdg =>
      simp only [Option.isSome_some]
      simp only [Bool.not_eq_true', Bool.not_eq_false] at hdg
      simp [hie, hdg]

/-- Every entry accumulated by the TOC builder satisfies the
parent/level relationship of `parse_toc_line`. -/
theorem toc_parse_entries_inv (dt : PyStr) (td : List (Nat × PyStr)) :
    ∀ e ∈ (toc_parse dt td).entries,
      (e.parent_id = none ↔ e.level = 1) ∧
        (∀ p, e.parent_id = some p → p ≠ []) := by
  have hline : ∀ (st : TocParseState) (pg : Nat) (line : PyStr),
      (∀ e ∈ st.entries, (e.parent_id = none ↔ e.level = 1) ∧
        (∀ p, e.parent_id = some p → p ≠ [])) →
      ∀ e ∈ (toc_process_line dt st pg line).entries,
        (e.parent_id = none ↔ e.level = 1) ∧
          (∀ p, e.parent_id = some p → p ≠ []) := by
    intro st pg line hst e he
    unfold toc_process_line at he
    split at he
    · exact hst e he
    · next e' hsome =>
      simp only at he
      rcases List.mem_append.mp he with hin | hnew
      · exact hst e hin
      · have := List.mem_singleton.mp hnew
        subst this
        exact parse_toc_line_parent_level hsome
  have hlines : ∀ (lines : List PyStr) (pg : Nat) (st : TocParseState),
      (∀ e ∈ st.entries, (e.parent_id = none ↔ e.level = 1) ∧
        (∀ p, e.parent_id = some p → p ≠ [])) →
      ∀ e ∈ (lines.foldl (fun s l => toc_process_line dt s pg l) st).entries,
        (e.parent_id = none ↔ e.level = 1) ∧
          (∀ p, e.parent_id = some p → p ≠ []) := by
    intro lines
    induction lines with
    | nil => exact fun pg st h => h
    | cons l ls ih =>
      intro pg st h
      rw [List.foldl_cons]
      exact ih pg _ (hline st pg l h)
  have hpages : ∀ (l : List (Nat × PyStr)) (st : TocParseState),
      (∀ e ∈ st.entries, (e.parent_id = none ↔ e.level = 1) ∧
        (∀ p, e.parent_id = some p → p ≠ [])) →
      ∀ e ∈ (l.foldl (toc_process_page dt) st).entries,
        (e.parent_id = none ↔ e.level = 1) ∧
          (∀ p, e.parent_id = some p → p ≠ []) := by
    intro l
    induction l with
    | nil => exact fun st h => h
    | cons pg pgs ih =>
      intro st h
      rw [List.foldl_cons]
      refine ih _ ?_
      unfold toc_process_page
      split
      · exact h
      · exact hlines _ _ _ h
  exact hpages td initTocParseState (by simp [initTocParseState])

/-- The hierarchy loop appends no issue when no entry triggers the
orphan condition. -/
theorem toc_hierarchy_fold_no_issues {l : List TocDict}
    (h : ∀ d ∈ l, (decide (1 < d.level.getD 0) && !pyTruthyStr d.parent_id) = false) :
    ∀ acc : Nat × List PyStr, (l.foldl toc_hierarchy_step acc).2 = acc.2 := by
  induction l with
  | nil => intro acc; rfl
  | cons d ds ih =>
    intro acc
    rw [List.foldl_cons]
    rw [ih fun d' hd' => h d' (List.mem_cons_of_mem _ hd')]
    simp only [toc_hierarchy_step, gt_iff_lt, h d (List.mem_cons_self _ _),
      Bool.false_eq_true, if_false]

/-! ## Claim theorems -/

/-- C1: for every page-ordered input, if the scan of `USBPDSpecParser.parse`
ends with a non-null open section id and a non-empty buffer (as happens
whenever the last line is non-header content), the returned list is the
scanned sections followed by one final flushed `ContentSection` built from
that id and buffer — the same `__create_section_entry` form used at a next
header. -/
theorem claim_C1 : ∀ (dt : PyStr) (td : List (Nat × PyStr)) (sid : PyStr),
    (spec_scan dt td).current_section = some sid →
    (spec_scan dt td).buffer ≠ [] →
    spec_parse dt td =
      (spec_scan dt td).sections ++
        [create_section_entry dt sid (spec_scan dt td).buffer] := by
  intro dt td sid hcur hbuf
  have hsne : sid ≠ [] := (spec_scan_inv dt td).1 sid hcur
  have hg : (pyTruthyStr (spec_scan dt td).current_section &&
      !(spec_scan dt td).buffer.isEmpty) = true := by
    rw [hcur]
    simp [pyTruthyStr, List.isEmpty_iff, hsne, hbuf]
  unfold spec_parse flush_section
  rw [if_pos hg, hcur]
  rfl

/-- Witness for C1 at a concrete input whose last line is content. -/
theorem claim_C1_witness :
    (spec_scan "Spec".data trailingPage).current_section = some "1".data ∧
      (spec_scan "Spec".data trailingPage).buffer ≠ [] ∧
      spec_parse "Spec".data trailingPage =
        (spec_scan "Spec".data trailingPage).sections ++
          [create_section_entry "Spec".data "1".data
            (spec_scan "Spec".data trailingPage).buffer] :=
  ⟨by decide, by decide, claim_C1 "Spec".data trailingPage "1".data
    (by decide) (by decide)⟩

/-- C2 counterexample: the header classifier accepts a line whose first
non-whitespace character is the non-ASCII Unicode digit U+0663, so the
ASCII-only reading of the claim is false on the code. -/
theorem claim_C2_counterexample :
    is_section_header "٣ marker".data = true ∧
      (pyStrip "٣ marker".data).headI = '٣' ∧
      isAsciiDigit '٣' = false := by decide

/-- C2 amended: a line is classified as a header iff, after stripping,
it is non-empty and its first character passes Python `str.isdigit`
(which accepts non-ASCII Unicode digits); moreover the TOC line parser
yields an entry exactly on such lines. -/
theorem claim_C2_amended : ∀ (dt line : PyStr) (pg : Nat),
    (is_section_header line = true ↔
      pyStrip line ≠ [] ∧ pyIsDigit (pyStrip line).headI = true) ∧
      (parse_toc_line dt line pg).isSome = is_section_header line := by
  intro dt line pg
  refine ⟨?_, parse_toc_line_isSome dt line pg⟩
  simp [is_section_header, List.isEmpty_iff]

/-- C3: on the single-page input of the spec, the TOC builder returns the
two stated entries in order and the content builder the two stated
records in order. -/
theorem claim_C3 :
    (toc_parse "Spec".data samplePage).entries =
      [{ doc_title := "Spec".data, section_id := "1".data,
         title := "Intro".data, page := 1, level := 1, parent_id := none,
         full_path := "1 Intro".data },
       { doc_title := "Spec".data, section_id := "1.1".data,
         title := "Background".data, page := 1, level := 2,
         parent_id := some "1".data, full_path := "1.1 Background".data }] ∧
      spec_parse "Spec".data samplePage =
        [{ doc_title := "Spec".data, section_id := "1".data,
           content := "Intro Some text".data },
         { doc_title := "Spec".data, section_id := "1.1".data,
           content := "Background More text".data }] := by
  constructor <;> rfl

/-- C6: every record returned by `USBPDSpecParser.parse` has content that
is non-empty after trimming: empty-buffer sections are never emitted. -/
theorem claim_C6 : ∀ (dt : PyStr) (td : List (Nat × PyStr)),
    ∀ e ∈ spec_parse dt td, pyStrip e.content ≠ [] := by
  intro dt td
  have h := spec_scan_inv dt td
  unfold spec_parse
  exact flush_section_inv h.2.1 h.2.2

/-- Witness for C6 on a concrete record of a concrete parse. -/
theorem claim_C6_witness :
    ({ doc_title := "Spec".data, section_id := "1".data,
       content := "Intro Some text".data } : ContentSection) ∈
        spec_parse "Spec".data trailingPage ∧
      pyStrip "Intro Some text".data ≠ [] :=
  ⟨by decide, claim_C6 "Spec".data trailingPage
    { doc_title := "Spec".data, section_id := "1".data,
      content := "Intro Some text".data } (by decide)⟩

/-- C8: a page with empty text contributes no TOC entries and no content
lines and leaves the content scanner state (sections, open section id and
buffer) unchanged, wherever it occurs — so a section spanning the empty
page is emitted as one record. -/
theorem claim_C8 : ∀ (dt : PyStr) (td1 td2 : List (Nat × PyStr)) (n : Nat),
    spec_scan dt (td1 ++ (n, []) :: td2) = spec_scan dt (td1 ++ td2) ∧
      toc_parse dt (td1 ++ (n, []) :: td2) = toc_parse dt (td1 ++ td2) := by
  intro dt td1 td2 n
  have hspec : ∀ st, spec_process_page dt st (n, []) = st := fun st => rfl
  have htoc : ∀ st, toc_process_page dt st (n, []) = st := fun st => rfl
  unfold spec_scan toc_parse
  constructor <;> simp [List.foldl_append, hspec, htoc]

/-- C9: a builder-produced TOC entry has `parent_id` null iff its level
is 1, and on builder output the orphan condition of
`TOCValidationStrategy.__validate_hierarchy` never fires: the hierarchy
issue list is unchanged by the rule. -/
theorem claim_C9 : (∀ (dt line : PyStr) (pg : Nat) (e : TOCEntry),
      parse_toc_line dt line pg = some e →
        (e.parent_id = none ↔ e.level = 1)) ∧
    ∀ (dt : PyStr) (td : List (Nat × PyStr)) (st : TocValidatorState),
      (toc_validate_hierarchy st
          ((toc_parse dt td).entries.map TOCEntry.toDict)).2.hierarchy_issues =
        st.hierarchy_issues := by
  constructor
  · intro dt line pg e h
    exact (parse_toc_line_parent_level h).1
  · intro dt td st
    have hents := toc_parse_entries_inv dt td
    have hcond : ∀ d ∈ (toc_parse dt td).entries.map TOCEntry.toDict,
        (decide (1 < d.level.getD 0) && !pyTruthyStr d.parent_id) = false := by
      intro d hd
      obtain ⟨e, he, rfl⟩ := List.mem_map.mp hd
      obtain ⟨hiff, hp⟩ := hents e he
      by_cases hl : 1 < e.level
      · cases hpar : e.parent_id with
        | none =>
          have := hiff.mp hpar
          omega
        | some p =>
          simp [TOCEntry.toDict, hpar, pyTruthyStr, List.isEmpty_iff,
            hp p hpar]
      · simp [TOCEntry.toDict, hl]
    have hfold := toc_hierarchy_fold_no_issues hcond (0, st.hierarchy_issues)
    simp only [toc_validate_hierarchy]
    split_ifs <;> simp [hfold]

/-- Witness for C9 on a concrete level-2 TOC line. -/
theorem claim_C9_witness :
    parse_toc_line "Spec".data "2.1 Overview".data 3 =
        some { doc_title := "Spec".data, section_id := "2.1".data,
               title := "Overview".data, page := 3, level := 2,
               parent_id := some "2".data,
               full_path := "2.1 Overview".data } ∧
      (({ doc_title := "Spec".data, section_id := "2.1".data,
          title := "Overview".data, page := 3, level := 2,
          parent_id := some "2".data,
          full_path := "2.1 Overview".data } : TOCEntry).parent_id = none ↔
        ({ doc_title := "Spec".data, section_id := "2.1".data,
           title := "Overview".data, page := 3, level := 2,
           parent_id := some "2".data,
           full_path := "2.1 Overview".data } : TOCEntry).level = 1) :=
  ⟨by decide, claim_C9.1 "Spec".data "2.1 Overview".data 3 _ (by decide)⟩

/-- C5: with the minimum-section threshold at 1000, any 999-entry input
fails TOC validation with exactly the insufficient-sections message
(stating count and minimum) and `is_valid = False`. -/
theorem claim_C5 : ∀ (st : TocValidatorState) (data : List TocDict),
    st.min_sections = 1000 → data.length = 999 →
    (toc_validate st data).1 = false ∧
      (toc_validate st data).2.base.validation_errors =
        [insufficient_sections_msg 999 1000] ∧
      (toc_validate st data).2.base.is_valid = some false ∧
      insufficient_sections_msg 999 1000 =
        "Insufficient sections: 999 (minimum: 1000)".data := by
  intro st data hmin hlen
  have hcount : toc_validate_section_count
      { st with base := reset_base st.base } data =
      (false,
        { st with
          base := add_error (reset_base st.base) (insufficient_sections_msg 999 1000) }) := by
    unfold toc_validate_section_count
    simp [hlen, hmin]
  simp only [toc_validate, hcount]
  refine ⟨rfl, ?_, rfl, by decide⟩
  simp [add_error, reset_base]

/-- Witness for C5: 999 well-formed entries on a fresh validator. -/
theorem claim_C5_witness :
    initTocValidator.min_sections = 1000 ∧
      (List.replicate 999 wellFormedTocDict).length = 999 ∧
      (toc_validate initTocValidator
          (List.replicate 999 wellFormedTocDict)).1 = false ∧
      (toc_validate initTocValidator
          (List.replicate 999 wellFormedTocDict)).2.base.validation_errors =
        [insufficient_sections_msg 999 1000] :=
  ⟨rfl, List.length_replicate 999 wellFormedTocDict,
    (claim_C5 initTocValidator _ rfl (List.length_replicate 999 wellFormedTocDict)).1,
    (claim_C5 initTocValidator _ rfl
      (List.length_replicate 999 wellFormedTocDict)).2.1⟩

/-- The quality rule only divides by the (non-zero) input length. -/
theorem spec_validate_content_quality_isSome (st : SpecValidatorState)
    {data : List ContentDict} (h : data.length ≠ 0) :
    (spec_validate_content_quality st data).isSome = true := by
  simp only [spec_validate_content_quality, h, if_false]
  split <;> simp

/-- The coverage rule only divides by the (non-zero) input length. -/
theorem spec_validate_content_coverage_isSome (st : SpecValidatorState)
    {data : List ContentDict} (h : data.length ≠ 0) :
    (spec_validate_content_coverage st data).isSome = true := by
  have hpos : data.length > 0 := Nat.pos_of_ne_zero h
  simp only [spec_validate_content_coverage, hpos, if_true, h, if_false]
  split_ifs <;> simp

/-- Unfolded form of the count rule of `SpecValidationStrategy`. -/
theorem spec_validate_section_count_spec (st : SpecValidatorState)
    (data : List ContentDict) :
    spec_validate_section_count st data =
      if data.length < st.min_sections then
        (false,
          { st with
            base := add_error st.base
              (insufficient_sections_msg data.length st.min_sections) })
      else (true, st) := rfl

/-- C10: content validation never hits a division by zero: every division
is behind the minimum-section-count rule (whose threshold is positive),
so `validate` always returns a verdict.  The TOC strategy contains no
division at all: `toc_validate` is a total function by construction. -/
theorem claim_C10 : ∀ (st : SpecValidatorState) (data : List ContentDict),
    0 < st.min_sections → (spec_validate st data).isSome = true := by
  intro st data hmin
  simp only [spec_validate, spec_validate_section_count_spec]
  by_cases hc : data.length < st.min_sections
  · simp [hc]
  · have hlen : data.length ≠ 0 := by omega
    simp only [hc, if_false, Bool.not_true, Bool.false_eq_true]
    obtain ⟨r2, hr2⟩ := Option.isSome_iff_exists.mp
      (spec_validate_content_quality_isSome
        { st with base := reset_base st.base } hlen)
    rw [hr2]
    rcases r2 with ⟨vq, st2⟩
    cases vq
    · simp
    · simp only [Bool.not_true, Bool.false_eq_true, if_false]
      obtain ⟨r4, hr4⟩ := Option.isSome_iff_exists.mp
        (spec_validate_content_coverage_isSome
          (spec_validate_required_fields st2 data).2 hlen)
      rcases hfs : spec_validate_required_fields st2 data with ⟨vf, st3⟩
      cases vf
      · simp
      · simp only [Bool.not_true, Bool.false_eq_true, if_false]
        rw [hfs] at hr4
        simp only at hr4
        rw [hr4]
        rcases r4 with ⟨vc, st4⟩
        cases vc
        · simp
        · simp only [Bool.not_true, Bool.false_eq_true, if_false]
          split <;> simp

/-- Witness for C10 on the fresh validator and the empty list. -/
theorem claim_C10_witness :
    0 < initSpecValidator.min_sections ∧
      (spec_validate initSpecValidator []).isSome = true :=
  ⟨by decide, claim_C10 initSpecValidator [] (by decide)⟩

/-- One quality-loop step on an empty-content dict: the id joins
`__empty_sections`, nothing else moves. -/
theorem spec_quality_step_empty (st : SpecValidatorState) (w : Nat) :
    spec_quality_step (st, w) emptyContentDict =
      ({ st with empty_sections := st.empty_sections ++ ["9".data] }, w) := rfl

/-- One quality-loop step on a one-character dict: the id joins
`__short_sections`, the totals and the with-content count advance. -/
theorem spec_quality_step_short (st : SpecValidatorState) (w : Nat)
    (hm : 1 < st.min_content_length) :
    spec_quality_step (st, w) shortContentDict =
      ({ st with
         short_sections := st.short_sections ++ ["8".data],
         total_content_length := st.total_content_length + 1 }, w + 1) := by
  have hclen : (pyStrip (shortContentDict.content.getD [])).length = 1 := rfl
  simp only [spec_quality_step, hclen]
  simp [hm]
  rfl

/-- Quality loop over `n` empty-content dicts. -/
theorem spec_quality_fold_empty : ∀ (n : Nat) (st : SpecValidatorState) (w : Nat),
    (List.replicate n emptyContentDict).foldl spec_quality_step (st, w) =
      ({ st with
         empty_sections := st.empty_sections ++ List.replicate n "9".data }, w) := by
  intro n
  induction n with
  | zero => intro st w; simp
  | succ n ih =>
    intro st w
    rw [List.replicate_succ, List.foldl_cons, spec_quality_step_empty, ih]
    simp [List.replicate_succ, List.append_assoc]

/-- Quality loop over `n` one-character dicts. -/
theorem spec_quality_fold_short : ∀ (n : Nat) (st : SpecValidatorState) (w : Nat),
    1 < st.min_content_length →
    (List.replicate n shortContentDict).foldl spec_quality_step (st, w) =
      ({ st with
         short_sections := st.short_sections ++ List.replicate n "8".data,
         total_content_length := st.total_content_length + n }, w + n) := by
  intro n
  induction n with
  | zero => intro st w _; simp
  | succ n ih =>
    intro st w hm
    rw [List.replicate_succ, List.foldl_cons, spec_quality_step_short st w hm]
    have ih' := ih
      { st with
        short_sections := st.short_sections ++ ["8".data],
        total_content_length := st.total_content_length + 1 }
      (w + 1) hm
    rw [ih']
    simp [List.replicate_succ, List.append_assoc, Nat.add_assoc,
      Nat.add_comm, Nat.add_left_comm]

/-- The with-content counter of the quality loop counts the entries whose
trimmed content is non-empty. -/
theorem spec_quality_fold_snd : ∀ (data : List ContentDict)
    (st : SpecValidatorState) (w : Nat),
    (data.foldl spec_quality_step (st, w)).2 =
      w + data.countP (fun e => !((pyStrip (e.content.getD [])).length == 0)) := by
  intro data
  induction data with
  | nil => intro st w; simp
  | cons e es ih =>
    intro st w
    rw [List.foldl_cons]
    by_cases h0 : (pyStrip (e.content.getD [])).length = 0
    · have hstep : spec_quality_step (st, w) e =
          ({ st with
             total_content_length := st.total_content_length +
               (pyStrip (e.content.getD [])).length,
             empty_sections := st.empty_sections ++
               [e.section_id.getD "unknown".data] }, w) := by
        simp only [spec_quality_step, h0]
        simp
      rw [hstep, ih]
      rw [List.countP_cons_of_neg]
      simp [h0]
    · have hsnd : (spec_quality_step (st, w) e).2 = w + 1 := by
        simp only [spec_quality_step]
        split_ifs <;> simp_all
      have hw : spec_quality_step (st, w) e =
          ((spec_quality_step (st, w) e).1, w + 1) := by
        rw [← hsnd]
      rw [hw, ih]
      rw [List.countP_cons_of_pos]
      · omega
      · simp [h0]

/-- The quality loop never touches the base-validator state nor the
configured thresholds. -/
theorem spec_quality_fold_frame : ∀ (data : List ContentDict)
    (st : SpecValidatorState) (w : Nat),
    (data.foldl spec_quality_step (st, w)).1.base = st.base ∧
      (data.foldl spec_quality_step (st, w)).1.min_content_quality =
        st.min_content_quality ∧
      (data.foldl spec_quality_step (st, w)).1.min_sections =
        st.min_sections := by
  intro data
  induction data with
  | nil => intro st w; exact ⟨rfl, rfl, rfl⟩
  | cons e es ih =>
    intro st w
    rw [List.foldl_cons]
    have hstep : (spec_quality_step (st, w) e).1.base = st.base ∧
        (spec_quality_step (st, w) e).1.min_content_quality =
          st.min_content_quality ∧
        (spec_quality_step (st, w) e).1.min_sections = st.min_sections := by
      simp only [spec_quality_step]
      split_ifs <;> simp
    rcases hstep with ⟨hb, hq, hs⟩
    rcases hst : spec_quality_step (st, w) e with ⟨st1, w1⟩
    rw [hst] at hb hq hs
    simp only at hb hq hs
    obtain ⟨ib, iq, is'⟩ := ih st1 w1
    exact ⟨by rw [ib, hb], by rw [iq, hq], by rw [is', hs]⟩

/-- A Boolean predicate and its negation count up to the length. -/
theorem countP_not_add {α : Type} (p : α → Bool) (l : List α) :
    l.countP (fun e => !(p e)) + l.countP p = l.length := by
  induction l with
  | nil => rfl
  | cons e es ih =>
    by_cases h : p e = true
    · rw [List.countP_cons_of_pos p _ h,
        List.countP_cons_of_neg (fun e => !(p e)) _ (by simp [h])]
      simp only [List.length_cons]
      omega
    · rw [List.countP_cons_of_neg p _ h,
        List.countP_cons_of_pos (fun e => !(p e)) _ (by simp [h])]
      simp only [List.length_cons]
      omega

/-- C7 counterexample: with the quality threshold set to 0.5, the quality
rule passes (does not fail) on 1000 sections of which 40% are empty,
since the with-content fraction 0.6 is not below 0.5. -/
theorem claim_C7_counterexample :
    (spec_validate_content_quality halfQualityValidator
        fortyPctEmptyData).map Prod.fst = some true := by
  have h1 := spec_quality_fold_empty 400 halfQualityValidator 0
  have h2 := spec_quality_fold_short 600
    { halfQualityValidator with
      empty_sections := halfQualityValidator.empty_sections ++
        List.replicate 400 "9".data }
    0 (by decide)
  have hfold : fortyPctEmptyData.foldl spec_quality_step
      (halfQualityValidator, 0) =
      ({ halfQualityValidator with
         empty_sections := List.replicate 400 "9".data,
         short_sections := List.replicate 600 "8".data,
         total_content_length := 600 }, 600) := by
    unfold fortyPctEmptyData
    rw [List.foldl_append, h1, h2]
    rfl
  have hlen : fortyPctEmptyData.length = 1000 := by
    simp only [fortyPctEmptyData, List.length_append, List.length_replicate]
  simp only [spec_validate_content_quality, hfold, hlen]
  rw [show halfQualityValidator.min_content_quality = 1 / 2 from rfl]
  norm_num

/-- C7 amended: with the quality threshold the code actually fixes
(`__min_content_quality = 0.75`), content validation of a fresh validator
fails on the quality rule for every input of at least the minimum section
count in which exactly 40% of the sections have empty trimmed content:
the with-content fraction is 0.6 < 0.75, and the recorded error is the
quality message. -/
theorem claim_C7_amended : ∀ (data : List ContentDict),
    1000 ≤ data.length →
    5 * data.countP (fun e => (pyStrip (e.content.getD [])).length == 0) =
      2 * data.length →
    ∃ st', spec_validate initSpecValidator data = some (false, st') ∧
      st'.base.validation_errors =
        [content_quality_msg (3 / 5) (3 / 4)] := by
  intro data hlen hemp
  have hlen0 : data.length ≠ 0 := by omega
  have hreset : { initSpecValidator with
      base := reset_base initSpecValidator.base } = initSpecValidator := rfl
  have hc : ¬(data.length < initSpecValidator.min_sections) := by
    show ¬(data.length < 1000)
    omega
  have hnot := countP_not_add
    (fun e => (pyStrip (e.content.getD [])).length == 0) data
  have hsnd := spec_quality_fold_snd data initSpecValidator 0
  obtain ⟨hb, hq, hs⟩ := spec_quality_fold_frame data initSpecValidator 0
  rcases hr : data.foldl spec_quality_step (initSpecValidator, 0) with ⟨st1, w⟩
  rw [hr] at hsnd hb hq hs
  simp only at hsnd hb hq hs
  have hw : 5 * w = 3 * data.length := by
    rw [hsnd]
    omega
  have hl0 : (data.length : ℚ) ≠ 0 := by exact_mod_cast hlen0
  have hqv : ((w : ℚ) / (data.length : ℚ)) = 3 / 5 := by
    rw [div_eq_iff hl0]
    have h5 : (5 : ℚ) * (w : ℚ) = 3 * (data.length : ℚ) := by
      exact_mod_cast hw
    linarith
  have hq34 : st1.min_content_quality = 3 / 4 := by
    rw [hq]
    rfl
  have hqrule : spec_validate_content_quality initSpecValidator data =
      some (false, { st1 with
        base := add_error st1.base (content_quality_msg (3 / 5) (3 / 4)) }) := by
    simp only [spec_validate_content_quality, hr, hlen0, if_false, hqv, hq34]
    norm_num
  refine ⟨{ st1 with
      base := add_error st1.base (content_quality_msg (3 / 5) (3 / 4)) },
    ?_, ?_⟩
  · simp only [spec_validate, spec_validate_section_count_spec, hreset, hc,
      if_false, hqrule]
    rfl
  · simp only [add_error, hb]
    rfl

/-- Witness for the amended C7 on 1000 concrete sections, 400 empty. -/
theorem claim_C7_amended_witness :
    1000 ≤ fortyPctEmptyData.length ∧
      5 * fortyPctEmptyData.countP
          (fun e => (pyStrip (e.content.getD [])).length == 0) =
        2 * fortyPctEmptyData.length ∧
      ∃ st', spec_validate initSpecValidator fortyPctEmptyData =
          some (false, st') ∧
        st'.base.validation_errors =
          [content_quality_msg (3 / 5) (3 / 4)] := by
  have h1 : 1000 ≤ fortyPctEmptyData.length := by
    simp only [fortyPctEmptyData, List.length_append, List.length_replicate]
    omega
  have h2 : 5 * fortyPctEmptyData.countP
      (fun e => (pyStrip (e.content.getD [])).length == 0) =
      2 * fortyPctEmptyData.length := by
    simp only [fortyPctEmptyData, List.countP_append, List.countP_replicate,
      List.length_append, List.length_replicate]
    decide
  exact ⟨h1, h2, claim_C7_amended fortyPctEmptyData h1 h2⟩

/-- Unfolded form of the count rule of `TOCValidationStrategy`. -/
theorem toc_validate_section_count_spec (st : TocValidatorState)
    (data : List TocDict) :
    toc_validate_section_count st data =
      if data.length < st.min_sections then
        (false,
          { st with
            base := add_error st.base
              (insufficient_sections_msg data.length st.min_sections) })
      else (true, st) := rfl

/-- One hierarchy-loop step on the orphan entry always appends its id. -/
theorem toc_hierarchy_step_orphan (acc : Nat × List PyStr) :
    toc_hierarchy_step acc orphanTocDict =
      (max acc.1 2, acc.2 ++ ["1.1".data]) := rfl

/-- Issue list after the hierarchy loop over `n` orphan entries. -/
theorem toc_hierarchy_fold_orphan_snd : ∀ (n : Nat) (acc : Nat × List PyStr),
    ((List.replicate n orphanTocDict).foldl toc_hierarchy_step acc).2 =
      acc.2 ++ List.replicate n "1.1".data := by
  intro n
  induction n with
  | zero => intro acc; simp
  | succ n ih =>
    intro acc
    rw [List.replicate_succ, List.foldl_cons, toc_hierarchy_step_orphan, ih]
    simp [List.replicate_succ, List.append_assoc]

/-- Max level after the hierarchy loop over orphan entries is at most 2. -/
theorem toc_hierarchy_fold_orphan_fst_le : ∀ (n : Nat) (acc : Nat × List PyStr),
    ((List.replicate n orphanTocDict).foldl toc_hierarchy_step acc).1 ≤
      max acc.1 2 := by
  intro n
  induction n with
  | zero => intro acc; exact le_max_left _ _
  | succ n ih =>
    intro acc
    rw [List.replicate_succ, List.foldl_cons, toc_hierarchy_step_orphan]
    calc ((List.replicate n orphanTocDict).foldl toc_hierarchy_step
            (max acc.1 2, acc.2 ++ ["1.1".data])).1
        ≤ max (max acc.1 2) 2 := ih _
      _ = max acc.1 2 := by simp [max_assoc]

/-- Running `TOCValidationStrategy.__validate_hierarchy` on 1000 orphan entries:
the depth check passes, the ratio check fires, and the issue list grows by
the 1000 ids — on top of whatever `__hierarchy_issues` already held. -/
theorem toc_validate_hierarchy_orphan (st : TocValidatorState)
    (hdep : st.max_hierarchy_depth = 10) :
    toc_validate_hierarchy st orphanTocData =
      (false,
        { st with
          hierarchy_issues := st.hierarchy_issues ++
            List.replicate 1000 "1.1".data,
          base := add_error st.base
            (hierarchy_issues_msg (st.hierarchy_issues.length + 1000)) }) := by
  have hsnd := toc_hierarchy_fold_orphan_snd 1000 (0, st.hierarchy_issues)
  have hfst := toc_hierarchy_fold_orphan_fst_le 1000 (0, st.hierarchy_issues)
  rcases hr : orphanTocData.foldl toc_hierarchy_step
      (0, st.hierarchy_issues) with ⟨maxl, issues⟩
  have hr2 : (List.replicate 1000 orphanTocDict).foldl toc_hierarchy_step
      (0, st.hierarchy_issues) = (maxl, issues) := hr
  rw [hr2] at hsnd hfst
  simp only at hsnd hfst
  subst hsnd
  have hmaxl : ¬(maxl > st.max_hierarchy_depth) := by
    have hle2 : maxl ≤ 2 := by simpa using hfst
    rw [hdep]
    omega
  have hratio : ((st.hierarchy_issues ++
        List.replicate 1000 "1.1".data).length : ℚ) >
      ((orphanTocData.length : ℚ) * (1 / 10)) := by
    rw [show orphanTocData.length = 1000 by
      simp only [orphanTocData, List.length_replicate]]
    rw [List.length_append, List.length_replicate]
    push_cast
    have : (0 : ℚ) ≤ (st.hierarchy_issues.length : ℚ) := by positivity
    linarith
  simp only [toc_validate_hierarchy, hr]
  rw [if_neg hmaxl, if_pos hratio]
  rw [List.length_append, List.length_replicate]

/-- When the count rule passes and the hierarchy rule fails,
`TOCValidationStrategy.validate` short-circuits with the hierarchy
result. -/
theorem toc_validate_of_hierarchy_fail (st : TocValidatorState)
    (data : List TocDict)
    (hcount : ¬(data.length < st.min_sections))
    {st2 : TocValidatorState}
    (hhier : toc_validate_hierarchy
      { st with base := reset_base st.base } data = (false, st2)) :
    toc_validate st data = (false, st2) := by
  simp only [toc_validate]
  rw [toc_validate_section_count_spec, if_neg hcount]
  dsimp only
  rw [hhier]
  rfl

/-- Running `TOCValidationStrategy.validate` on 1000 orphan entries: the count
rule passes, the hierarchy ratio fails; the reported issue count includes
whatever `__hierarchy_issues` carried over from previous calls. -/
theorem toc_validate_orphan (st : TocValidatorState)
    (hmin : st.min_sections = 1000) (hdep : st.max_hierarchy_depth = 10) :
    toc_validate st orphanTocData =
      (false,
        { st with
          hierarchy_issues := st.hierarchy_issues ++
            List.replicate 1000 "1.1".data,
          base := add_error (reset_base st.base)
            (hierarchy_issues_msg (st.hierarchy_issues.length + 1000)) }) := by
  apply toc_validate_of_hierarchy_fail
  · rw [show orphanTocData.length = 1000 from by
      simp only [orphanTocData, List.length_replicate]]
    rw [hmin]
    omega
  · exact toc_validate_hierarchy_orphan
      { st with base := reset_base st.base } hdep

/-- C4 (code bug): `validate` called twice in succession on the same TOC
validator instance with the same 1000-entry list returns False both times
but records DIFFERENT error messages — too many hierarchy issues, 1000
then 2000 — because `BaseValidator._reset` clears only the base
error state while `__hierarchy_issues` carries over between calls. -/
theorem claim_C4_bug :
    (toc_validate initTocValidator orphanTocData).1 = false ∧
      (toc_validate initTocValidator orphanTocData).2.base.validation_errors =
        [hierarchy_issues_msg 1000] ∧
      (toc_validate (toc_validate initTocValidator orphanTocData).2
          orphanTocData).1 = false ∧
      (toc_validate (toc_validate initTocValidator orphanTocData).2
          orphanTocData).2.base.validation_errors =
        [hierarchy_issues_msg 2000] ∧
      hierarchy_issues_msg 1000 ≠ hierarchy_issues_msg 2000 := by
  have h1 := toc_validate_orphan initTocValidator rfl rfl
  have h2 := toc_validate_orphan
    { initTocValidator with
      hierarchy_issues := initTocValidator.hierarchy_issues ++
        List.replicate 1000 "1.1".data,
      base := add_error (reset_base initTocValidator.base)
        (hierarchy_issues_msg
          (initTocValidator.hierarchy_issues.length + 1000)) }
    rfl rfl
  rw [h1]
  dsimp only
  rw [h2]
  dsimp only
  refine ⟨rfl, ?_, rfl, ?_, by decide⟩
  · rfl
  · show ([] : List PyStr) ++
        [hierarchy_issues_msg
          ((initTocValidator.hierarchy_issues ++
            List.replicate 1000 "1.1".data).length + 1000)] =
      [hierarchy_issues_msg 2000]
    rw [show (initTocValidator.hierarchy_issues ++
        List.replicate 1000 "1.1".data).length = 1000 from by
      simp only [initTocValidator, List.nil_append, List.length_replicate]]
    rfl
